import Mathlib

/- Shallow embedding of src/fishtank.py, the aquarium simulation core.
   Python floats are modelled as real numbers where square roots occur
   (Fish seek behavior) and as rationals elsewhere; Python ints as Nat / Int.
   Python's random choices are supplied by explicit oracle arguments.
   Exceptions (ZeroDivisionError) are modelled as Option results. -/

/-- Fade decrement applied to eaten food each tick (constant FADE_SPEED = 8,
line 37 of fishtank.py). -/
def FADE_SPEED : Int := 8

/-- Class Food (lines 126-146): position (the click coordinates, integers, so
rationals suffice), sprite dimensions (every loaded food surface is scaled to
FOOD_DISPLAY_SIZE = 50 by 50), alpha and the fading flag.  alpha is a Python
int and may go negative. -/
structure Food where
  x : ℚ
  y : ℚ
  sw : Nat
  sh : Nat
  alpha : Int
  fading : Bool
deriving DecidableEq

/-- Food.start_fade (lines 134-135). -/
def Food.start_fade (f : Food) : Food := { f with fading := true }

/-- Food.update (lines 137-140): if fading, decrement alpha by FADE_SPEED;
return whether alpha > 0 afterwards. -/
def Food.update (f : Food) : Food × Bool :=
  let f1 := if f.fading then { f with alpha := f.alpha - FADE_SPEED } else f
  (f1, decide (0 < f1.alpha))

/-- The food filtering step of AquariumGame.update (line 260):
self.food_list = [f for f in self.food_list if f.update()] - every food is
updated once and the ones reporting dead are dropped. -/
def foodStep (l : List Food) : List Food :=
  l.filterMap fun f => (fun r => if r.2 then some r.1 else none) (Food.update f)

/-- Class Bubble (lines 106-119): position, radius (an int), rise speed and
horizontal drift (drawn once at creation from fixed ranges). -/
structure Bubble where
  x : ℚ
  y : ℚ
  radius : Nat
  speed : ℚ
  drift : ℚ
deriving DecidableEq

/-- Bubble.update (lines 115-119): move up by speed, drift horizontally, and
report whether the bubble is still within play bounds.  Both comparisons on x
in the source are strict: -50 < self.x < screen_width + 50. -/
def Bubble.update (b : Bubble) (screen_width screen_height : ℚ) : Bubble × Bool :=
  let b1 := { b with y := b.y - b.speed, x := b.x + b.drift }
  (b1, decide (0 < b1.y + (b.radius : ℚ) ∧ -50 < b1.x ∧ b1.x < screen_width + 50))

/-- The bubble filtering step of AquariumGame.update (line 259):
self.bubbles = [b for b in self.bubbles if b.update(w, h)]. -/
def bubblesStep (l : List Bubble) (w h : ℚ) : List Bubble :=
  l.filterMap fun b => (fun r => if r.2 then some r.1 else none) (Bubble.update b w h)

/-- Class Fish (lines 40-103): position and velocity are floats; w, h are the
world dimensions handed to the constructor; iw, ih are the sprite dimensions
after the scale to (120, 80); flipped records the horizontal mirroring
performed by pygame.transform.flip (which preserves the dimensions). -/
structure Fish where
  x : ℝ
  y : ℝ
  dx : ℝ
  dy : ℝ
  w : Nat
  h : Nat
  iw : Nat
  ih : Nat
  speed : ℝ
  change_dir_counter : Nat
  flipped : Bool

/-- Fish center x coordinate as computed in Fish.update line 67:
self.x + self.image.get_width() // 2 (integer floor division). -/
noncomputable def fishCenterX (f : Fish) : ℝ := f.x + ((f.iw / 2 : Nat) : ℝ)

/-- Fish center y coordinate (line 68). -/
noncomputable def fishCenterY (f : Fish) : ℝ := f.y + ((f.ih / 2 : Nat) : ℝ)

/-- Food center x as computed in Fish.update line 75:
closest.x + closest.surface.get_width() // 2. -/
noncomputable def foodCenterX (g : Food) : ℝ := (g.x : ℝ) + ((g.sw / 2 : Nat) : ℝ)

/-- Food center y (line 76). -/
noncomputable def foodCenterY (g : Food) : ℝ := (g.y : ℝ) + ((g.sh / 2 : Nat) : ℝ)

/-- The key of the min() call in Fish.update lines 71-74:
lambda f: (f.x - cx) ** 2 + (f.y - cy) ** 2.  Note that it measures from the
food's stored top-left position (f.x, f.y), not from the food's center. -/
noncomputable def cornerKey (cx cy : ℝ) (g : Food) : ℝ :=
  ((g.x : ℝ) - cx) ^ 2 + ((g.y : ℝ) - cy) ^ 2

/-- Python's min(best :: rest, key) with the index of the kept element:
the running best is replaced only on a strictly smaller key, so ties keep the
earliest element.  bi is the index of the running best and i the index of the
next element of the list. -/
noncomputable def minFrom (key : Food → ℝ) : Food → Nat → Nat → List Food → Food × Nat
  | best, bi, _, [] => (best, bi)
  | best, bi, i, g :: gs =>
      if key g < key best then minFrom key g i (i + 1) gs
      else minFrom key best bi (i + 1) gs

/-- The closest food selected by Fish.update (lines 71-74), with its index. -/
noncomputable def fishTarget (cx cy : ℝ) (a : Food) (l : List Food) : Food × Nat :=
  minFrom (cornerKey cx cy) a 0 1 l

/-- The eat radius of Fish.update line 81:
min(image width, image height) * 0.35. -/
noncomputable def eatRadius (f : Fish) : ℝ := ((min f.iw f.ih : Nat) : ℝ) * 0.35

/-- Squared Euclidean distance from the fish center to a food's center. -/
noncomputable def centerDistSq (f : Fish) (g : Food) : ℝ :=
  (foodCenterX g - fishCenterX f) ^ 2 + (foodCenterY g - fishCenterY f) ^ 2

/-- The distance used by Fish.update line 79:
max((dx ** 2 + dy ** 2) ** 0.5, 0.01). -/
noncomputable def targetDist (f : Fish) (g : Food) : ℝ :=
  max (Real.sqrt (centerDistSq f g)) 0.01

/-- random.choice([-speed, speed]) modelled by an oracle boolean
(lines 93-94). -/
noncomputable def pickDir (b : Bool) (s : ℝ) : ℝ := if b then s else -s

/-- Fish._check_bounds (lines 54-63): the horizontal check inverts dx, flips
the sprite and clamps x; the independent vertical check inverts dy and clamps
y but never flips. -/
noncomputable def Fish.check_bounds (f : Fish) : Fish :=
  let f1 :=
    if f.x < 0 ∨ f.x > (f.w : ℝ) - (f.iw : ℝ) then
      { f with dx := -f.dx, flipped := !f.flipped,
               x := max 0 (min f.x ((f.w : ℝ) - (f.iw : ℝ))) }
    else f
  if f1.y < 0 ∨ f1.y > (f1.h : ℝ) - (f1.ih : ℝ) then
    { f1 with dy := -f1.dy, y := max 0 (min f1.y ((f1.h : ℝ) - (f1.ih : ℝ))) }
  else f1

/-- Fish.update (lines 65-99).  With food present: select the min-key food,
eat it (mark it fading, no movement) when the distance is below the eat
radius, otherwise steer toward its center at constant speed.  With no food:
bump the wander counter and re-randomize the velocity once the counter
exceeds 120 (the random choice comes from the rnd oracle).  Then integrate
the position and resolve bounds.  Returns the updated fish together with the
food list (the eaten item marked fading in place, as the Python code mutates
the list element). -/
noncomputable def Fish.update (f : Fish) (rnd : Bool × Bool) (foods : List Food) :
    Fish × List Food :=
  match foods with
  | [] =>
      let c := f.change_dir_counter + 1
      let f1 :=
        if 120 < c then
          { f with dx := pickDir rnd.1 f.speed, dy := pickDir rnd.2 f.speed,
                   change_dir_counter := 0 }
        else { f with change_dir_counter := c }
      (Fish.check_bounds { f1 with x := f1.x + f1.dx, y := f1.y + f1.dy }, [])
  | a :: l =>
      let t := fishTarget (fishCenterX f) (fishCenterY f) a l
      let dist := targetDist f t.1
      if dist < eatRadius f then
        (f, (a :: l).set t.2 t.1.start_fade)
      else
        let ddx := foodCenterX t.1 - fishCenterX f
        let ddy := foodCenterY t.1 - fishCenterY f
        let f1 := { f with dx := f.speed * ddx / dist, dy := f.speed * ddy / dist }
        (Fish.check_bounds { f1 with x := f1.x + f1.dx, y := f1.y + f1.dy }, a :: l)

/-- Modelled from the spec: the selection key the specification describes,
measuring from the food's own center ("find the food item minimizing squared
Euclidean distance from its own center to the fish center"). -/
noncomputable def centerKey (cx cy : ℝ) (g : Food) : ℝ :=
  (foodCenterX g - cx) ^ 2 + (foodCenterY g - cy) ^ 2

/-- Modelled from the spec: target selection by the food's own center. -/
noncomputable def fishTargetSpec (cx cy : ℝ) (a : Food) (l : List Food) : Food × Nat :=
  minFrom (centerKey cx cy) a 0 1 l

/-- Modelled from the spec: Fish.update as the specification describes it,
identical to Fish.update except that the targeted food is the one whose own
center is closest to the fish center. -/
noncomputable def Fish.updateSpec (f : Fish) (rnd : Bool × Bool) (foods : List Food) :
    Fish × List Food :=
  match foods with
  | [] =>
      let c := f.change_dir_counter + 1
      let f1 :=
        if 120 < c then
          { f with dx := pickDir rnd.1 f.speed, dy := pickDir rnd.2 f.speed,
                   change_dir_counter := 0 }
        else { f with change_dir_counter := c }
      (Fish.check_bounds { f1 with x := f1.x + f1.dx, y := f1.y + f1.dy }, [])
  | a :: l =>
      let t := fishTargetSpec (fishCenterX f) (fishCenterY f) a l
      let dist := targetDist f t.1
      if dist < eatRadius f then
        (f, (a :: l).set t.2 t.1.start_fade)
      else
        let ddx := foodCenterX t.1 - fishCenterX f
        let ddy := foodCenterY t.1 - fishCenterY f
        let f1 := { f with dx := f.speed * ddx / dist, dy := f.speed * ddy / dist }
        (Fish.check_bounds { f1 with x := f1.x + f1.dx, y := f1.y + f1.dy }, a :: l)

/-- Class AquariumGame state (lines 186-218).  Background images carry no data
this embedding needs, so only their count is kept; food surfaces are kept as
their pixel dimensions (each is scaled to 50 by 50 at load). -/
structure Game where
  width : Nat
  height : Nat
  numBackgrounds : Nat
  current_bg_index : Int
  food_surfaces : List (Nat × Nat)
  fish_list : List Fish
  food_list : List Food
  bubbles : List Bubble
  bubble_timer : Nat
  running : Bool

/-- The input events AquariumGame.handle_events reacts to (lines 231-247). -/
inductive GEvent where
  | quit
  | mouseDown (x y : ℚ)
  | keyRight
  | keyLeft
  | keyDigit (d : Nat)
deriving DecidableEq

/-- AquariumGame.handle_events for one event (lines 231-247).  sel models the
mutable one-element list selected_food_index.  A result of none models an
uncaught Python exception: with zero food surfaces a mouse press evaluates
selected_food_index[0] % len(self.food_surfaces) = sel % 0, a
ZeroDivisionError (line 237), and with zero backgrounds the arrow keys
evaluate (index plus or minus 1) % len(self.backgrounds) = ... % 0, again a
ZeroDivisionError (lines 241, 243). -/
def handleEvent (g : Game) (sel : Nat) : GEvent → Option (Game × Nat)
  | .quit => some ({ g with running := false }, sel)
  | .mouseDown x y =>
      match g.food_surfaces with
      | [] => none
      | s :: rest =>
          let surf := (s :: rest).getD (sel % (s :: rest).length) s
          some ({ g with food_list :=
                    g.food_list ++ [{ x := x, y := y, sw := surf.1, sh := surf.2,
                                      alpha := 255, fading := false }] }, sel)
  | .keyRight =>
      match g.numBackgrounds with
      | 0 => none
      | n + 1 => some ({ g with current_bg_index := (g.current_bg_index + 1) % ((n : Int) + 1) }, sel)
  | .keyLeft =>
      match g.numBackgrounds with
      | 0 => none
      | n + 1 => some ({ g with current_bg_index := (g.current_bg_index - 1) % ((n : Int) + 1) }, sel)
  | .keyDigit d => some (g, if d < g.food_surfaces.length then d else sel)

/-- The background choice of AquariumGame.draw (lines 264-269): blit the image
at the current index when any backgrounds are loaded, otherwise fill with the
fallback color (0, 100, 150). -/
def drawBackground (g : Game) : Int ⊕ (Nat × Nat × Nat) :=
  if g.numBackgrounds = 0 then Sum.inr (0, 100, 150) else Sum.inl g.current_bg_index

/- Concrete entities used by witnesses and counterexamples. -/

/-- A game state with no loaded food sprites and no loaded backgrounds. -/
def gameBare : Game :=
  { width := 900, height := 600, numBackgrounds := 0, current_bg_index := 0,
    food_surfaces := [], fish_list := [], food_list := [], bubbles := [],
    bubble_timer := 0, running := true }

/-- A freshly spawned food item (alpha 255, not fading). -/
def foodFresh : Food := { x := 0, y := 0, sw := 50, sh := 50, alpha := 255, fading := false }

/-- A food item just eaten by a fish: alpha still 255, fading. -/
def foodEaten : Food := { x := 0, y := 0, sw := 50, sh := 50, alpha := 255, fading := true }

/-- A bubble whose drifted x lands exactly on the boundary -50. -/
def bubbleEdge : Bubble := { x := -50, y := 100, radius := 5, speed := 1, drift := 0 }

/- Helper lemmas. -/

/-- Membership in the food filtering step. -/
lemma mem_foodStep {g : Food} {l : List Food} :
    g ∈ foodStep l ↔ ∃ e ∈ l, Food.update e = (g, true) := by
  simp only [foodStep, List.mem_filterMap]
  constructor
  · rintro ⟨e, he, hfe⟩
    refine ⟨e, he, ?_⟩
    rcases hq : Food.update e with ⟨a, b⟩
    rw [hq] at hfe
    cases b with
    | true => simp only [if_true] at hfe; rw [Option.some_inj] at hfe; rw [hfe]
    | false => simp at hfe
  · rintro ⟨e, he, hfe⟩
    exact ⟨e, he, by rw [hfe]; simp⟩

/-- Every member of the filtered food list has positive alpha. -/
lemma foodStep_alpha_pos {e : Food} {l : List Food} (h : e ∈ foodStep l) :
    0 < e.alpha := by
  obtain ⟨a, _, ha⟩ := mem_foodStep.mp h
  have key : (Food.update a).2 = decide (0 < (Food.update a).1.alpha) := rfl
  have h1 : (Food.update a).1 = e := by rw [ha]
  have h2 : (Food.update a).2 = true := by rw [ha]
  rw [h2, h1] at key
  exact of_decide_eq_true key.symm

/-- Membership in the bubble filtering step. -/
lemma mem_bubblesStep {c : Bubble} {l : List Bubble} {w h : ℚ} :
    c ∈ bubblesStep l w h ↔ ∃ a ∈ l, Bubble.update a w h = (c, true) := by
  simp only [bubblesStep, List.mem_filterMap]
  constructor
  · rintro ⟨e, he, hfe⟩
    refine ⟨e, he, ?_⟩
    rcases hq : Bubble.update e w h with ⟨a, b⟩
    rw [hq] at hfe
    cases b with
    | true => simp only [if_true] at hfe; rw [Option.some_inj] at hfe; rw [hfe]
    | false => simp at hfe
  · rintro ⟨e, he, hfe⟩
    exact ⟨e, he, by rw [hfe]; simp⟩

/- Claim theorems. -/

/-- C8: the source cannot safely reject a pointer press when zero food-type
sprites are loaded: handling the event evaluates sel % 0 and raises
ZeroDivisionError (modelled as none), so no Food is created but an error IS
raised, contradicting the claim; the spec itself flags this as an open bug of
the source. -/
theorem mouse_event_zero_food_sprites (g : Game) (sel : Nat) (x y : ℚ)
    (h : g.food_surfaces = []) :
    handleEvent g sel (GEvent.mouseDown x y) = none := by
  simp [handleEvent, h]

theorem mouse_event_zero_food_sprites_witness :
    gameBare.food_surfaces = [] ∧ handleEvent gameBare 0 (GEvent.mouseDown 5 5) = none :=
  ⟨rfl, mouse_event_zero_food_sprites gameBare 0 5 5 rfl⟩

/-- C9: with zero loaded backgrounds the source does render the fallback fill
color (0, 100, 150), but the background-next and background-previous keys are
not no-ops: they evaluate (index plus or minus 1) % 0 and raise
ZeroDivisionError (modelled as none), contradicting the claim. -/
theorem background_keys_zero_backgrounds (g : Game) (sel : Nat)
    (h : g.numBackgrounds = 0) :
    handleEvent g sel GEvent.keyRight = none ∧
    handleEvent g sel GEvent.keyLeft = none ∧
    drawBackground g = Sum.inr (0, 100, 150) := by
  refine ⟨?_, ?_, ?_⟩ <;> simp [handleEvent, drawBackground, h]

theorem background_keys_zero_backgrounds_witness :
    gameBare.numBackgrounds = 0 ∧
    handleEvent gameBare 0 GEvent.keyRight = none ∧
    handleEvent gameBare 0 GEvent.keyLeft = none ∧
    drawBackground gameBare = Sum.inr (0, 100, 150) :=
  ⟨rfl, (background_keys_zero_backgrounds gameBare 0 rfl).1,
   (background_keys_zero_backgrounds gameBare 0 rfl).2.1,
   (background_keys_zero_backgrounds gameBare 0 rfl).2.2⟩

/-- C10: a Food on which start_fade was never called (fading still false,
alpha still the initial 255) is left unchanged by update, always reports
alive, and therefore survives every world food filtering step. -/
theorem uneaten_food_persists (f : Food) (l : List Food)
    (hf : f.fading = false) (ha : f.alpha = 255) :
    Food.update f = (f, true) ∧
    (∀ n : Nat, (fun e : Food => (Food.update e).1)^[n] f = f) ∧
    (f ∈ l → f ∈ foodStep l) := by
  have h1 : Food.update f = (f, true) := by
    simp [Food.update, hf, ha]
  refine ⟨h1, ?_, ?_⟩
  · intro n
    induction n with
    | zero => rfl
    | succ k ih => rw [Function.iterate_succ_apply', ih, h1]
  · intro hl
    exact mem_foodStep.mpr ⟨f, hl, h1⟩

theorem uneaten_food_persists_witness :
    foodFresh.fading = false ∧ foodFresh.alpha = 255 ∧
    Food.update foodFresh = (foodFresh, true) ∧ foodFresh ∈ foodStep [foodFresh] :=
  ⟨rfl, rfl, (uneaten_food_persists foodFresh [foodFresh] rfl rfl).1,
   (uneaten_food_persists foodFresh [foodFresh] rfl rfl).2.2 (List.mem_singleton.mpr rfl)⟩

/-- C4 counterexample: starting from the only alpha a food ever starts with
(255), a fading food reaches alpha 7 after 31 updates; the 32nd update takes
alpha to -1, leaving the claimed range [0, 255], and the food is removed on
that update with alpha equal to -1, never 0. -/
theorem food_alpha_overshoot_counterexample :
    ((fun e : Food => (Food.update e).1)^[31] foodEaten).alpha = 7 ∧
    Food.update ((fun e : Food => (Food.update e).1)^[31] foodEaten)
      = ((fun e : Food => (Food.update e).1)^[32] foodEaten, false) ∧
    ((fun e : Food => (Food.update e).1)^[32] foodEaten).alpha = -1 ∧
    ¬(0 ≤ ((fun e : Food => (Food.update e).1)^[32] foodEaten).alpha) := by
  decide

/-- C4 (amended): a fading food's update decrements alpha by exactly the fade
constant 8 and reports alive exactly when the new alpha is positive; for the
alphas reachable from the initial 255 (positive, at most 255, congruent to 7
mod 8) the updated alpha stays in [-1, 255]; members of the world's filtered
food list always have positive alpha; a dead food (alpha at most 0) is never
a member of a filtered list, so a removed item never reappears; and the world
keeps exactly the items whose update reported alive. -/
theorem food_fade_invariants (f g : Food) (l : List Food)
    (hf : f.fading = true) (h1 : 0 < f.alpha) (h2 : f.alpha ≤ 255)
    (h3 : f.alpha % 8 = 7) :
    (Food.update f).1.alpha = f.alpha - 8 ∧
    ((Food.update f).2 = true ↔ 8 < f.alpha) ∧
    (-1 ≤ (Food.update f).1.alpha ∧ (Food.update f).1.alpha ≤ 255) ∧
    (∀ e ∈ foodStep l, 0 < e.alpha) ∧
    (g.alpha ≤ 0 → g ∉ foodStep l) ∧
    (g ∈ foodStep l ↔ ∃ e ∈ l, Food.update e = (g, true)) := by
  have ha : (Food.update f).1.alpha = f.alpha - 8 := by
    simp [Food.update, hf, FADE_SPEED]
  refine ⟨ha, ?_, ?_, ?_, ?_, mem_foodStep⟩
  · have hb : (Food.update f).2 = decide (0 < (Food.update f).1.alpha) := rfl
    rw [hb, ha]
    constructor
    · intro hd; have := of_decide_eq_true hd; omega
    · intro hd; exact decide_eq_true (by omega)
  · rw [ha]; omega
  · intro e he; exact foodStep_alpha_pos he
  · intro hg hmem
    exact absurd (foodStep_alpha_pos hmem) (by omega)

theorem food_fade_invariants_witness :
    foodEaten.fading = true ∧ 0 < foodEaten.alpha ∧ foodEaten.alpha ≤ 255 ∧
    foodEaten.alpha % 8 = 7 ∧ (Food.update foodEaten).1.alpha = foodEaten.alpha - 8 :=
  ⟨rfl, by decide, by decide, by decide,
   (food_fade_invariants foodEaten foodEaten [foodEaten] rfl (by decide) (by decide) (by decide)).1⟩

/-- C7 counterexample: a bubble whose x lands exactly on -50 after drifting is
inside the claimed closed interval [-50, width + 50] and above the bottom
cutoff, yet update reports it dead, because the source's bound is strict
(-50 < self.x).  So aliveness is not the claimed closed-interval condition. -/
theorem bubble_closed_interval_counterexample :
    (Bubble.update bubbleEdge 900 600).2 = false ∧
    0 < (Bubble.update bubbleEdge 900 600).1.y + (bubbleEdge.radius : ℚ) ∧
    -50 ≤ (Bubble.update bubbleEdge 900 600).1.x ∧
    (Bubble.update bubbleEdge 900 600).1.x ≤ 900 + 50 := by
  refine ⟨?_, ?_, ?_, ?_⟩ <;> norm_num [Bubble.update, bubbleEdge]

/-- C7 (amended): update moves the bubble up by its rise speed (strictly up
when the creation invariant speed > 0 holds) and sideways by its drift, keeps
speed and radius unchanged, and reports alive exactly when the new y plus the
radius is positive and the new x lies strictly inside the OPEN interval
(-50, width + 50); the world's bubble filtering step keeps exactly the
updated bubbles that report alive. -/
theorem bubble_update_characterization (b : Bubble) (w h : ℚ) (l : List Bubble)
    (hs : 0 < b.speed) :
    (Bubble.update b w h).1.y = b.y - b.speed ∧
    (Bubble.update b w h).1.y < b.y ∧
    (Bubble.update b w h).1.x = b.x + b.drift ∧
    (Bubble.update b w h).1.speed = b.speed ∧
    (Bubble.update b w h).1.radius = b.radius ∧
    ((Bubble.update b w h).2 = true ↔
      (0 < (Bubble.update b w h).1.y + (b.radius : ℚ) ∧
       -50 < (Bubble.update b w h).1.x ∧ (Bubble.update b w h).1.x < w + 50)) ∧
    (∀ c : Bubble, c ∈ bubblesStep l w h ↔ ∃ a ∈ l, Bubble.update a w h = (c, true)) := by
  refine ⟨rfl, ?_, rfl, rfl, rfl, ?_, fun c => mem_bubblesStep⟩
  · show b.y - b.speed < b.y
    linarith
  · show decide _ = true ↔ _
    rw [decide_eq_true_iff]
    exact Iff.rfl

theorem bubble_update_characterization_witness :
    0 < bubbleEdge.speed ∧
    (Bubble.update bubbleEdge 900 600).1.y = bubbleEdge.y - bubbleEdge.speed ∧
    (Bubble.update bubbleEdge 900 600).1.y < bubbleEdge.y :=
  ⟨by norm_num [bubbleEdge],
   (bubble_update_characterization bubbleEdge 900 600 [] (by norm_num [bubbleEdge])).1,
   (bubble_update_characterization bubbleEdge 900 600 [] (by norm_num [bubbleEdge])).2.1⟩

/-- check_bounds never touches the wander counter. -/
lemma check_bounds_counter (f : Fish) :
    (Fish.check_bounds f).change_dir_counter = f.change_dir_counter := by
  simp only [Fish.check_bounds]
  split <;> split <;> rfl

/-- check_bounds is the identity on a fish already inside the box. -/
lemma check_bounds_id (f : Fish) (hx0 : 0 ≤ f.x) (hx1 : f.x ≤ (f.w : ℝ) - f.iw)
    (hy0 : 0 ≤ f.y) (hy1 : f.y ≤ (f.h : ℝ) - f.ih) : Fish.check_bounds f = f := by
  have h1 : ¬(f.x < 0 ∨ f.x > (f.w : ℝ) - (f.iw : ℝ)) := by push_neg; exact ⟨hx0, hx1⟩
  have h2 : ¬(f.y < 0 ∨ f.y > (f.h : ℝ) - (f.ih : ℝ)) := by push_neg; exact ⟨hy0, hy1⟩
  simp only [Fish.check_bounds, if_neg h1, if_neg h2]

/-- The wander counter after one update: bumped (and wrapped past 120) on an
empty-food tick, untouched when any food is present. -/
lemma update_counter (f : Fish) (rnd : Bool × Bool) (foods : List Food) :
    (Fish.update f rnd foods).1.change_dir_counter =
      if foods.isEmpty then
        (if 120 < f.change_dir_counter + 1 then 0 else f.change_dir_counter + 1)
      else f.change_dir_counter := by
  cases foods with
  | nil =>
      simp only [Fish.update, List.isEmpty_nil, if_true]
      rw [check_bounds_counter]
      by_cases hc : 120 < f.change_dir_counter + 1
      · rw [if_pos hc, if_pos hc]
      · rw [if_neg hc, if_neg hc]
  | cons a l =>
      simp only [Fish.update, List.isEmpty_cons]
      by_cases hd :
        targetDist f (fishTarget (fishCenterX f) (fishCenterY f) a l).1 < eatRadius f
      · rw [if_pos hd]; simp
      · rw [if_neg hd, check_bounds_counter]; simp

/-- The x position produced by check_bounds. -/
lemma cb_x (f : Fish) :
    (Fish.check_bounds f).x =
      if f.x < 0 ∨ f.x > (f.w : ℝ) - f.iw then max 0 (min f.x ((f.w : ℝ) - f.iw))
      else f.x := by
  by_cases hx : f.x < 0 ∨ f.x > (f.w : ℝ) - f.iw <;>
    by_cases hy : f.y < 0 ∨ f.y > (f.h : ℝ) - f.ih <;>
    simp [Fish.check_bounds, hx, hy]

/-- The y position produced by check_bounds. -/
lemma cb_y (f : Fish) :
    (Fish.check_bounds f).y =
      if f.y < 0 ∨ f.y > (f.h : ℝ) - f.ih then max 0 (min f.y ((f.h : ℝ) - f.ih))
      else f.y := by
  by_cases hx : f.x < 0 ∨ f.x > (f.w : ℝ) - f.iw <;>
    by_cases hy : f.y < 0 ∨ f.y > (f.h : ℝ) - f.ih <;>
    simp [Fish.check_bounds, hx, hy]

/-- The horizontal velocity produced by check_bounds. -/
lemma cb_dx (f : Fish) :
    (Fish.check_bounds f).dx =
      if f.x < 0 ∨ f.x > (f.w : ℝ) - f.iw then -f.dx else f.dx := by
  by_cases hx : f.x < 0 ∨ f.x > (f.w : ℝ) - f.iw <;>
    by_cases hy : f.y < 0 ∨ f.y > (f.h : ℝ) - f.ih <;>
    simp [Fish.check_bounds, hx, hy]

/-- The vertical velocity produced by check_bounds. -/
lemma cb_dy (f : Fish) :
    (Fish.check_bounds f).dy =
      if f.y < 0 ∨ f.y > (f.h : ℝ) - f.ih then -f.dy else f.dy := by
  by_cases hx : f.x < 0 ∨ f.x > (f.w : ℝ) - f.iw <;>
    by_cases hy : f.y < 0 ∨ f.y > (f.h : ℝ) - f.ih <;>
    simp [Fish.check_bounds, hx, hy]

/-- The orientation produced by check_bounds: flipped exactly by the
horizontal check, never by the vertical one. -/
lemma cb_flipped (f : Fish) :
    (Fish.check_bounds f).flipped =
      if f.x < 0 ∨ f.x > (f.w : ℝ) - f.iw then !f.flipped else f.flipped := by
  by_cases hx : f.x < 0 ∨ f.x > (f.w : ℝ) - f.iw <;>
    by_cases hy : f.y < 0 ∨ f.y > (f.h : ℝ) - f.ih <;>
    simp [Fish.check_bounds, hx, hy]

/-- C5: after bounds resolution (for a sprite that fits in the world) the
position lies in [0, w - iw] x [0, h - ih]; a horizontal violation inverts dx
and flips the sprite; no horizontal violation leaves dx, orientation and x
alone; a vertical violation inverts dy (and, by the dx/flipped conjuncts,
never affects the orientation); the two checks are independent, so both can
fire in one tick. -/
theorem fish_bounds_resolution (f : Fish)
    (hw : (f.iw : ℝ) ≤ (f.w : ℝ)) (hh : (f.ih : ℝ) ≤ (f.h : ℝ)) :
    (0 ≤ (Fish.check_bounds f).x ∧ (Fish.check_bounds f).x ≤ (f.w : ℝ) - f.iw ∧
     0 ≤ (Fish.check_bounds f).y ∧ (Fish.check_bounds f).y ≤ (f.h : ℝ) - f.ih) ∧
    ((f.x < 0 ∨ f.x > (f.w : ℝ) - f.iw) →
      (Fish.check_bounds f).dx = -f.dx ∧ (Fish.check_bounds f).flipped = !f.flipped) ∧
    (¬(f.x < 0 ∨ f.x > (f.w : ℝ) - f.iw) →
      (Fish.check_bounds f).dx = f.dx ∧ (Fish.check_bounds f).flipped = f.flipped ∧
      (Fish.check_bounds f).x = f.x) ∧
    ((f.y < 0 ∨ f.y > (f.h : ℝ) - f.ih) → (Fish.check_bounds f).dy = -f.dy) ∧
    (¬(f.y < 0 ∨ f.y > (f.h : ℝ) - f.ih) →
      (Fish.check_bounds f).dy = f.dy ∧ (Fish.check_bounds f).y = f.y) := by
  have hW : (0:ℝ) ≤ (f.w : ℝ) - f.iw := by linarith
  have hH : (0:ℝ) ≤ (f.h : ℝ) - f.ih := by linarith
  refine ⟨⟨?_, ?_, ?_, ?_⟩, ?_, ?_, ?_, ?_⟩
  · rw [cb_x]; split
    · exact le_max_left _ _
    · next hn => push_neg at hn; exact hn.1
  · rw [cb_x]; split
    · exact max_le hW (min_le_right _ _)
    · next hn => push_neg at hn; exact hn.2
  · rw [cb_y]; split
    · exact le_max_left _ _
    · next hn => push_neg at hn; exact hn.1
  · rw [cb_y]; split
    · exact max_le hH (min_le_right _ _)
    · next hn => push_neg at hn; exact hn.2
  · intro hv
    exact ⟨by rw [cb_dx, if_pos hv], by rw [cb_flipped, if_pos hv]⟩
  · intro hv
    exact ⟨by rw [cb_dx, if_neg hv], by rw [cb_flipped, if_neg hv], by rw [cb_x, if_neg hv]⟩
  · intro hv; rw [cb_dy, if_pos hv]
  · intro hv
    exact ⟨by rw [cb_dy, if_neg hv], by rw [cb_y, if_neg hv]⟩

/-- A fish outside both bounds at once. -/
def fishCorner : Fish :=
  { x := -5, y := -5, dx := -1, dy := -2, w := 900, h := 600, iw := 120, ih := 80,
    speed := 1, change_dir_counter := 0, flipped := false }

theorem fish_bounds_resolution_witness :
    ((fishCorner.iw : ℝ) ≤ (fishCorner.w : ℝ)) ∧
    (Fish.check_bounds fishCorner).dx = -fishCorner.dx ∧
    (Fish.check_bounds fishCorner).flipped = !fishCorner.flipped ∧
    (Fish.check_bounds fishCorner).dy = -fishCorner.dy ∧
    0 ≤ (Fish.check_bounds fishCorner).x ∧
    (Fish.check_bounds fishCorner).x ≤ (fishCorner.w : ℝ) - fishCorner.iw := by
  have h := fish_bounds_resolution fishCorner (by norm_num [fishCorner])
    (by norm_num [fishCorner])
  have hx : fishCorner.x < 0 ∨ fishCorner.x > (fishCorner.w : ℝ) - fishCorner.iw :=
    Or.inl (by norm_num [fishCorner])
  have hy : fishCorner.y < 0 ∨ fishCorner.y > (fishCorner.h : ℝ) - fishCorner.ih :=
    Or.inl (by norm_num [fishCorner])
  exact ⟨by norm_num [fishCorner], (h.2.1 hx).1, (h.2.1 hx).2, h.2.2.2.1 hy,
    h.1.1, h.1.2.1⟩

/-- C6 (amended): with food present the wander counter is untouched (in
particular never reset, so the accumulated food-absent ticks need not be
consecutive); an empty-food tick with counter below 120 only bumps the
counter and integrates the unchanged velocity; an empty-food tick with
counter at least 120 re-randomizes the velocity (each component
independently set to plus or minus speed by the oracle) and resets the
counter to zero.  The bounds hypotheses keep the integrated position inside
the world so that check_bounds does not interfere. -/
theorem fish_wander_timing (f : Fish) (rnd : Bool × Bool) (foods : List Food)
    (hs : 0 ≤ f.speed)
    (hx0 : 0 ≤ f.x + f.dx) (hx1 : f.x + f.dx ≤ (f.w : ℝ) - f.iw)
    (hy0 : 0 ≤ f.y + f.dy) (hy1 : f.y + f.dy ≤ (f.h : ℝ) - f.ih)
    (hrx0 : 0 ≤ f.x - f.speed) (hrx1 : f.x + f.speed ≤ (f.w : ℝ) - f.iw)
    (hry0 : 0 ≤ f.y - f.speed) (hry1 : f.y + f.speed ≤ (f.h : ℝ) - f.ih) :
    (foods ≠ [] →
      (Fish.update f rnd foods).1.change_dir_counter = f.change_dir_counter) ∧
    (f.change_dir_counter < 120 →
      (Fish.update f rnd []).1 =
        { f with x := f.x + f.dx, y := f.y + f.dy,
                 change_dir_counter := f.change_dir_counter + 1 }) ∧
    (120 ≤ f.change_dir_counter →
      (Fish.update f rnd []).1 =
        { f with dx := pickDir rnd.1 f.speed, dy := pickDir rnd.2 f.speed,
                 x := f.x + pickDir rnd.1 f.speed, y := f.y + pickDir rnd.2 f.speed,
                 change_dir_counter := 0 }) := by
  refine ⟨?_, ?_, ?_⟩
  · intro hne
    rw [update_counter]
    cases foods with
    | nil => exact absurd rfl hne
    | cons a l => simp
  · intro hc
    have hc' : ¬(120 < f.change_dir_counter + 1) := by omega
    simp only [Fish.update, if_neg hc']
    exact check_bounds_id _ hx0 hx1 hy0 hy1
  · intro hc
    have hc' : 120 < f.change_dir_counter + 1 := by omega
    have hpx : ∀ b : Bool, 0 ≤ f.x + pickDir b f.speed ∧
        f.x + pickDir b f.speed ≤ (f.w : ℝ) - f.iw := by
      intro b; cases b <;> simp [pickDir] <;> constructor <;> linarith
    have hpy : ∀ b : Bool, 0 ≤ f.y + pickDir b f.speed ∧
        f.y + pickDir b f.speed ≤ (f.h : ℝ) - f.ih := by
      intro b; cases b <;> simp [pickDir] <;> constructor <;> linarith
    simp only [Fish.update, if_pos hc']
    exact check_bounds_id _ (hpx rnd.1).1 (hpx rnd.1).2 (hpy rnd.2).1 (hpy rnd.2).2

/-- A fish in the middle of the tank with a ripe wander counter. -/
def fishRipe : Fish :=
  { x := 400, y := 300, dx := 1, dy := 1, w := 900, h := 600, iw := 120, ih := 80,
    speed := 1, change_dir_counter := 120, flipped := false }

theorem fish_wander_timing_witness :
    120 ≤ fishRipe.change_dir_counter ∧
    (Fish.update fishRipe (true, false) []).1 =
      { fishRipe with dx := pickDir true fishRipe.speed, dy := pickDir false fishRipe.speed,
                      x := fishRipe.x + pickDir true fishRipe.speed,
                      y := fishRipe.y + pickDir false fishRipe.speed,
                      change_dir_counter := 0 } :=
  ⟨by norm_num [fishRipe],
   (fish_wander_timing fishRipe (true, false) [] (by norm_num [fishRipe])
      (by norm_num [fishRipe]) (by norm_num [fishRipe]) (by norm_num [fishRipe])
      (by norm_num [fishRipe]) (by norm_num [fishRipe]) (by norm_num [fishRipe])
      (by norm_num [fishRipe]) (by norm_num [fishRipe])).2.2 (by norm_num [fishRipe])⟩

/- C6 counterexample trace: 119 empty-food ticks, one tick with food present,
then two more empty-food ticks.  The wander counter is not reset by the food
tick, so the randomizing branch (the only branch that resets the counter to
zero) fires on the second empty tick after the interruption - after only two
consecutive food-absent ticks. -/

/-- Initial fish of the counterexample trace (fresh counter). -/
def fishTrace : Fish :=
  { x := 400, y := 300, dx := 1, dy := 1, w := 900, h := 600, iw := 120, ih := 80,
    speed := 1, change_dir_counter := 0, flipped := false }

/-- A food item present only at tick 119 of the trace. -/
def foodInterrupt : Food :=
  { x := 700, y := 400, sw := 50, sh := 50, alpha := 255, fading := false }

/-- The food made visible to the fish at each tick of the trace. -/
def foodsTrace (k : Nat) : List Food := if k = 119 then [foodInterrupt] else []

/-- The fish trace itself. -/
noncomputable def fishTraceAt : Nat → Fish
  | 0 => fishTrace
  | n + 1 => (Fish.update (fishTraceAt n) (false, false) (foodsTrace n)).1

/-- The wander counter of the trace, computed without real arithmetic. -/
def cntTrace : Nat → Nat
  | 0 => 0
  | n + 1 =>
      if n = 119 then cntTrace n
      else if 120 < cntTrace n + 1 then 0 else cntTrace n + 1

lemma fishTraceAt_counter : ∀ n, (fishTraceAt n).change_dir_counter = cntTrace n := by
  intro n
  induction n with
  | zero => rfl
  | succ k ih =>
      show (Fish.update (fishTraceAt k) (false, false) (foodsTrace k)).1.change_dir_counter
        = cntTrace (k + 1)
      rw [update_counter, cntTrace]
      by_cases hk : k = 119
      · subst hk
        simp [foodsTrace, ih]
      · rw [if_neg hk]
        simp [foodsTrace, hk, ih]

/-- C6 counterexample: in the trace above the counter reaches 120 at tick 121
and is reset to 0 by tick 122 - the reset that happens exactly when the
source takes its velocity re-randomization branch - although food was present
at tick 119, so at most two CONSECUTIVE food-absent ticks precede the
re-randomization.  The claim says this can happen only after exactly 120
consecutive food-absent ticks. -/
lemma cntTrace_below : ∀ n, n ≤ 119 → cntTrace n = n := by
  intro n
  induction n with
  | zero => intro _; rfl
  | succ k ih =>
      intro hn
      rw [cntTrace, if_neg (by omega), ih (by omega), if_neg (by omega)]

lemma cntTrace_121 : cntTrace 121 = 120 := by
  have e1 : cntTrace 120 = cntTrace 119 := by
    show cntTrace (119 + 1) = cntTrace 119
    rw [cntTrace, if_pos rfl]
  show cntTrace (120 + 1) = 120
  rw [cntTrace, if_neg (by omega), e1, cntTrace_below 119 (by omega), if_neg (by omega)]

theorem fish_wander_nonconsecutive_counterexample :
    (fishTraceAt 121).change_dir_counter = 120 ∧
    (fishTraceAt 122).change_dir_counter = 0 ∧
    foodsTrace 119 ≠ [] ∧ foodsTrace 120 = [] ∧ foodsTrace 121 = [] := by
  refine ⟨?_, ?_, ?_, rfl, rfl⟩
  · rw [fishTraceAt_counter]; exact cntTrace_121
  · rw [fishTraceAt_counter]
    show cntTrace (121 + 1) = 0
    rw [cntTrace, if_neg (by omega), cntTrace_121, if_pos (by omega)]
  · simp [foodsTrace]

/-- getD does not depend on the default inside the list's range. -/
lemma getD_default_irrel : ∀ (l : List Food) (n : Nat), n < l.length →
    ∀ d d' : Food, l.getD n d = l.getD n d' := by
  intro l
  induction l with
  | nil => intro n hn; simp at hn
  | cons a t ih =>
      intro n hn d d'
      cases n with
      | zero => rfl
      | succ m =>
          simp only [List.getD_cons_succ]
          exact ih m (by simpa using hn) d d'

/-- Correctness of the Python min fold: the result is a minimizer of the key,
and it is either the seed (at its index) or the FIRST list element strictly
improving on everything before it. -/
lemma minFrom_correct (key : Food → ℝ) :
    ∀ (l : List Food) (b : Food) (bi i : Nat),
      (key (minFrom key b bi i l).1 ≤ key b ∧
        ∀ g ∈ l, key (minFrom key b bi i l).1 ≤ key g) ∧
      (((minFrom key b bi i l).1 = b ∧ (minFrom key b bi i l).2 = bi) ∨
        ∃ j, j < l.length ∧ (minFrom key b bi i l).2 = i + j ∧
          l.getD j b = (minFrom key b bi i l).1 ∧
          key (minFrom key b bi i l).1 < key b ∧
          ∀ k < j, key (minFrom key b bi i l).1 < key (l.getD k b)) := by
  intro l
  induction l with
  | nil =>
      intro b bi i
      exact ⟨⟨le_refl _, by simp⟩, Or.inl ⟨rfl, rfl⟩⟩
  | cons g gs ih =>
      intro b bi i
      by_cases hg : key g < key b
      · have heq : minFrom key b bi i (g :: gs) = minFrom key g i (i + 1) gs := by
          rw [minFrom, if_pos hg]
        obtain ⟨⟨m1, m2⟩, hd⟩ := ih g i (i + 1)
        rw [heq]
        refine ⟨⟨le_of_lt (lt_of_le_of_lt m1 hg), ?_⟩, ?_⟩
        · intro z hz
          rcases List.mem_cons.mp hz with hz1 | hz2
          · rw [hz1]; exact m1
          · exact m2 z hz2
        · rcases hd with ⟨h1, h2⟩ | ⟨j, hj, hji, hgd, hlt, hall⟩
          · right
            refine ⟨0, by simp, by rw [h2]; omega, ?_, ?_, fun k hk => absurd hk (by omega)⟩
            · simp only [List.getD_cons_zero]; rw [h1]
            · rw [h1]; exact hg
          · right
            refine ⟨j + 1, by simpa using hj, by rw [hji]; ring, ?_,
              lt_trans hlt hg, ?_⟩
            · rw [List.getD_cons_succ, getD_default_irrel gs j hj b g]
              exact hgd
            · intro k hk
              cases k with
              | zero => simp only [List.getD_cons_zero]; exact hlt
              | succ m =>
                  rw [List.getD_cons_succ, getD_default_irrel gs m (by omega) b g]
                  exact hall m (by omega)
      · have heq : minFrom key b bi i (g :: gs) = minFrom key b bi (i + 1) gs := by
          rw [minFrom, if_neg hg]
        obtain ⟨⟨m1, m2⟩, hd⟩ := ih b bi (i + 1)
        rw [heq]
        push_neg at hg
        refine ⟨⟨m1, ?_⟩, ?_⟩
        · intro z hz
          rcases List.mem_cons.mp hz with hz1 | hz2
          · rw [hz1]; exact le_trans m1 hg
          · exact m2 z hz2
        · rcases hd with hleft | ⟨j, hj, hji, hgd, hlt, hall⟩
          · exact Or.inl hleft
          · right
            refine ⟨j + 1, by simpa using hj, by rw [hji]; ring, ?_, hlt, ?_⟩
            · rw [List.getD_cons_succ]; exact hgd
            · intro k hk
              cases k with
              | zero => simp only [List.getD_cons_zero]; exact lt_of_lt_of_le hlt hg
              | succ m => rw [List.getD_cons_succ]; exact hall m (by omega)

/-- C2 (amended): the food targeted by Fish.update is the item of the food
list minimizing the squared Euclidean distance from the food's stored
top-left position (NOT its center) to the fish center, ties broken by
first-encountered order: the returned index is in range and holds the
returned food, no list element has a smaller key, and every element before
the returned index has a strictly larger key. -/
theorem fish_target_corner_min (cx cy : ℝ) (a : Food) (l : List Food) :
    (fishTarget cx cy a l).2 < (a :: l).length ∧
    (a :: l).getD (fishTarget cx cy a l).2 a = (fishTarget cx cy a l).1 ∧
    (∀ g ∈ a :: l, cornerKey cx cy (fishTarget cx cy a l).1 ≤ cornerKey cx cy g) ∧
    (∀ k, k < (fishTarget cx cy a l).2 →
      cornerKey cx cy (fishTarget cx cy a l).1 < cornerKey cx cy ((a :: l).getD k a)) := by
  obtain ⟨⟨m1, m2⟩, hd⟩ := minFrom_correct (cornerKey cx cy) l a 0 1
  simp only [fishTarget]
  rcases hd with ⟨h1, h2⟩ | ⟨j, hj, hji, hgd, hlt, hall⟩
  · rw [h1, h2]
    refine ⟨by simp, by simp, ?_, fun k hk => absurd hk (by omega)⟩
    intro g hg
    rcases List.mem_cons.mp hg with hg1 | hg2
    · rw [hg1]
    · rw [h1] at m2; exact m2 g hg2
  · refine ⟨?_, ?_, ?_, ?_⟩
    · rw [hji]; simp; omega
    · rw [hji, Nat.add_comm 1 j, List.getD_cons_succ]
      exact hgd
    · intro g hg
      rcases List.mem_cons.mp hg with hg1 | hg2
      · rw [hg1]; exact le_of_lt hlt
      · exact m2 g hg2
    · intro k hk
      rw [hji] at hk
      cases k with
      | zero => rw [List.getD_cons_zero]; exact hlt
      | succ m =>
          rw [List.getD_cons_succ]
          exact hall m (by omega)

/-- A fish whose center is at (100, 100). -/
def fishSeek : Fish :=
  { x := 40, y := 60, dx := 0, dy := 0, w := 900, h := 600, iw := 120, ih := 80,
    speed := 1, change_dir_counter := 0, flipped := false }

/-- Food whose top-left corner is nearest the fish center (corner key 200)
but whose center is farther (center key 450). -/
def foodNearCorner : Food :=
  { x := 90, y := 90, sw := 50, sh := 50, alpha := 255, fading := false }

/-- Food whose top-left corner is farther (corner key 800) but whose own
center is nearest the fish center (center key 50). -/
def foodNearCenter : Food :=
  { x := 80, y := 80, sw := 50, sh := 50, alpha := 255, fading := false }

theorem fish_target_corner_min_witness :
    foodNearCenter ∈ [foodNearCorner, foodNearCenter] ∧
    cornerKey 100 100 (fishTarget 100 100 foodNearCorner [foodNearCenter]).1 ≤
      cornerKey 100 100 foodNearCenter :=
  ⟨by simp,
   (fish_target_corner_min 100 100 foodNearCorner [foodNearCenter]).2.2.1
     foodNearCenter (by simp)⟩

/-- C2 counterexample: with the two foods above, the source's Fish.update
eats the corner-nearest food (list position 0) while the spec-modelled
update - selecting by the food's own center - eats the other one (list
position 1), so the two disagree: advance does NOT target the food item
whose own center is closest. -/
theorem fish_target_center_counterexample :
    ((Fish.update fishSeek (true, true) [foodNearCorner, foodNearCenter]).2.getD 0
        foodNearCorner).fading = true ∧
    ((Fish.updateSpec fishSeek (true, true) [foodNearCorner, foodNearCenter]).2.getD 0
        foodNearCorner).fading = false ∧
    ((Fish.updateSpec fishSeek (true, true) [foodNearCorner, foodNearCenter]).2.getD 1
        foodNearCorner).fading = true ∧
    Fish.update fishSeek (true, true) [foodNearCorner, foodNearCenter] ≠
      Fish.updateSpec fishSeek (true, true) [foodNearCorner, foodNearCenter] := by
  have hsq784 : Real.sqrt 784 = 28 := by
    rw [show (784:ℝ) = 28 ^ 2 by norm_num]
    exact Real.sqrt_sq (by norm_num)
  have heat : eatRadius fishSeek = 28 := by
    norm_num [eatRadius, fishSeek]
  have hA : centerDistSq fishSeek foodNearCorner = 450 := by
    norm_num [centerDistSq, foodCenterX, foodCenterY, fishCenterX, fishCenterY,
      fishSeek, foodNearCorner]
  have hB : centerDistSq fishSeek foodNearCenter = 50 := by
    norm_num [centerDistSq, foodCenterX, foodCenterY, fishCenterX, fishCenterY,
      fishSeek, foodNearCenter]
  have hcondA : targetDist fishSeek foodNearCorner < eatRadius fishSeek := by
    rw [targetDist, hA, heat]
    have h1 : Real.sqrt 450 < Real.sqrt 784 :=
      Real.sqrt_lt_sqrt (by norm_num) (by norm_num)
    exact max_lt (by linarith [hsq784]) (by norm_num)
  have hcondB : targetDist fishSeek foodNearCenter < eatRadius fishSeek := by
    rw [targetDist, hB, heat]
    have h1 : Real.sqrt 50 < Real.sqrt 784 :=
      Real.sqrt_lt_sqrt (by norm_num) (by norm_num)
    exact max_lt (by linarith [hsq784]) (by norm_num)
  have htgt : fishTarget (fishCenterX fishSeek) (fishCenterY fishSeek)
      foodNearCorner [foodNearCenter] = (foodNearCorner, 0) := by
    have hkA : cornerKey (fishCenterX fishSeek) (fishCenterY fishSeek) foodNearCorner
        = 200 := by
      norm_num [cornerKey, fishCenterX, fishCenterY, fishSeek, foodNearCorner]
    have hkB : cornerKey (fishCenterX fishSeek) (fishCenterY fishSeek) foodNearCenter
        = 800 := by
      norm_num [cornerKey, fishCenterX, fishCenterY, fishSeek, foodNearCenter]
    rw [fishTarget]
    simp only [minFrom]
    rw [hkA, hkB]
    norm_num
  have htgts : fishTargetSpec (fishCenterX fishSeek) (fishCenterY fishSeek)
      foodNearCorner [foodNearCenter] = (foodNearCenter, 1) := by
    have hkA : centerKey (fishCenterX fishSeek) (fishCenterY fishSeek) foodNearCorner
        = 450 := by
      norm_num [centerKey, foodCenterX, foodCenterY, fishCenterX, fishCenterY,
        fishSeek, foodNearCorner]
    have hkB : centerKey (fishCenterX fishSeek) (fishCenterY fishSeek) foodNearCenter
        = 50 := by
      norm_num [centerKey, foodCenterX, foodCenterY, fishCenterX, fishCenterY,
        fishSeek, foodNearCenter]
    rw [fishTargetSpec]
    simp only [minFrom]
    rw [hkA, hkB]
    norm_num
  have hupd : Fish.update fishSeek (true, true) [foodNearCorner, foodNearCenter]
      = (fishSeek, [foodNearCorner.start_fade, foodNearCenter]) := by
    simp only [Fish.update]
    rw [htgt]
    dsimp only
    rw [if_pos hcondA]
    rfl
  have hupds : Fish.updateSpec fishSeek (true, true) [foodNearCorner, foodNearCenter]
      = (fishSeek, [foodNearCorner, foodNearCenter.start_fade]) := by
    simp only [Fish.updateSpec]
    rw [htgts]
    dsimp only
    rw [if_pos hcondB]
    rfl
  refine ⟨by rw [hupd]; rfl, by rw [hupds]; rfl, by rw [hupds]; rfl, ?_⟩
  rw [hupd, hupds]
  intro hcontra
  have hcf := congrArg (fun p : Fish × List Food => ((p.2.getD 0 foodNearCorner).fading)) hcontra
  simp [Food.start_fade, foodNearCorner] at hcf

/-- C3: when the Euclidean distance from the fish center to the targeted
food's center is below the eat radius (0.35 times the smaller sprite
dimension), update marks exactly that food item as fading and returns the
fish completely unchanged - no movement, no velocity change, no orientation
change this tick. -/
theorem fish_eats_close_food (f : Fish) (rnd : Bool × Bool) (a : Food) (l : List Food)
    (hclose : Real.sqrt (centerDistSq f
        (fishTarget (fishCenterX f) (fishCenterY f) a l).1) < eatRadius f) :
    Fish.update f rnd (a :: l) =
      (f, (a :: l).set (fishTarget (fishCenterX f) (fishCenterY f) a l).2
            (fishTarget (fishCenterX f) (fishCenterY f) a l).1.start_fade) := by
  have hpos : (0:ℝ) < eatRadius f := lt_of_le_of_lt (Real.sqrt_nonneg _) hclose
  have hm : 1 ≤ min f.iw f.ih := by
    by_contra hc
    push_neg at hc
    have h0 : min f.iw f.ih = 0 := by omega
    rw [eatRadius, h0] at hpos
    norm_num at hpos
  have h001 : (0.01:ℝ) < eatRadius f := by
    rw [eatRadius]
    have hcast : (1:ℝ) ≤ ((min f.iw f.ih : Nat) : ℝ) := by exact_mod_cast hm
    nlinarith
  have hcond : targetDist f (fishTarget (fishCenterX f) (fishCenterY f) a l).1
      < eatRadius f := by
    rw [targetDist]
    exact max_lt hclose h001
  simp only [Fish.update]
  rw [if_pos hcond]

/-- A fish in the middle of the tank. -/
def fishHungry : Fish :=
  { x := 400, y := 300, dx := 0, dy := 0, w := 900, h := 600, iw := 120, ih := 80,
    speed := 1, change_dir_counter := 0, flipped := false }

/-- Food whose center is 5 pixels from the center of fishHungry. -/
def foodClose : Food :=
  { x := 438, y := 319, sw := 50, sh := 50, alpha := 255, fading := false }

theorem fish_eats_close_food_witness :
    Real.sqrt (centerDistSq fishHungry
        (fishTarget (fishCenterX fishHungry) (fishCenterY fishHungry) foodClose []).1)
      < eatRadius fishHungry ∧
    Fish.update fishHungry (true, true) [foodClose] =
      (fishHungry, [foodClose.start_fade]) := by
  have htgt : fishTarget (fishCenterX fishHungry) (fishCenterY fishHungry) foodClose []
      = (foodClose, 0) := by
    rw [fishTarget, minFrom]
  have hdsq : centerDistSq fishHungry foodClose = 25 := by
    norm_num [centerDistSq, foodCenterX, foodCenterY, fishCenterX, fishCenterY,
      fishHungry, foodClose]
  have hs : Real.sqrt 25 = 5 := by
    rw [show (25:ℝ) = 5 ^ 2 by norm_num]
    exact Real.sqrt_sq (by norm_num)
  have heat : eatRadius fishHungry = 28 := by
    norm_num [eatRadius, fishHungry]
  have hclose : Real.sqrt (centerDistSq fishHungry
      (fishTarget (fishCenterX fishHungry) (fishCenterY fishHungry) foodClose []).1)
      < eatRadius fishHungry := by
    rw [htgt]
    dsimp only
    rw [hdsq, hs, heat]
    norm_num
  refine ⟨hclose, ?_⟩
  have happ := fish_eats_close_food fishHungry (true, true) foodClose [] hclose
  rw [htgt] at happ
  exact happ

/-- C1 (amended): with food present, when the targeted distance is at least
the eat radius, the sprite is nondegenerate, the speed is positive and below
twice the distance (no overshoot; the program's fish have eat radius 28 and
speeds at most 2.5, so both always hold there), and the integrated position
stays inside the world (so bounds clamping does not interfere), one update
strictly decreases the squared Euclidean distance from the fish center to
the targeted food's center. -/
theorem fish_seek_decreases_distance (f : Fish) (rnd : Bool × Bool) (a : Food)
    (l : List Food) (T : Food)
    (hT : T = (fishTarget (fishCenterX f) (fishCenterY f) a l).1)
    (d : ℝ) (hd : d = targetDist f T)
    (hm : 1 ≤ min f.iw f.ih)
    (hfar : eatRadius f ≤ d)
    (hs0 : 0 < f.speed)
    (hs2 : f.speed < 2 * d)
    (hx0 : 0 ≤ f.x + f.speed * (foodCenterX T - fishCenterX f) / d)
    (hx1 : f.x + f.speed * (foodCenterX T - fishCenterX f) / d ≤ (f.w : ℝ) - f.iw)
    (hy0 : 0 ≤ f.y + f.speed * (foodCenterY T - fishCenterY f) / d)
    (hy1 : f.y + f.speed * (foodCenterY T - fishCenterY f) / d ≤ (f.h : ℝ) - f.ih) :
    centerDistSq (Fish.update f rnd (a :: l)).1 T < centerDistSq f T := by
  have her : (0.35:ℝ) ≤ eatRadius f := by
    rw [eatRadius]
    have hcast : (1:ℝ) ≤ ((min f.iw f.ih : Nat) : ℝ) := by exact_mod_cast hm
    nlinarith
  have hd001 : (0.01:ℝ) < d := lt_of_lt_of_le (by norm_num) (le_trans her hfar)
  have hdp : (0:ℝ) < d := by linarith
  have hdne : d ≠ 0 := ne_of_gt hdp
  have hS : 0 ≤ centerDistSq f T := by
    rw [centerDistSq]; positivity
  have hmax : max (Real.sqrt (centerDistSq f T)) 0.01 = Real.sqrt (centerDistSq f T) := by
    rcases le_total (Real.sqrt (centerDistSq f T)) 0.01 with hc | hc
    · exfalso
      rw [targetDist, max_eq_right hc] at hd
      linarith
    · exact max_eq_left hc
  have hd2 : d ^ 2 = centerDistSq f T := by
    rw [hd, targetDist, hmax, Real.sq_sqrt hS]
  have hcond : ¬(targetDist f (fishTarget (fishCenterX f) (fishCenterY f) a l).1
      < eatRadius f) := by
    rw [← hT, ← hd]
    exact not_lt.mpr hfar
  simp only [Fish.update]
  rw [if_neg hcond]
  dsimp only
  rw [← hT, ← hd]
  have hcb := check_bounds_id
    { f with dx := f.speed * (foodCenterX T - fishCenterX f) / d,
             dy := f.speed * (foodCenterY T - fishCenterY f) / d,
             x := f.x + f.speed * (foodCenterX T - fishCenterX f) / d,
             y := f.y + f.speed * (foodCenterY T - fishCenterY f) / d }
    hx0 hx1 hy0 hy1
  rw [hcb]
  have hfx : fishCenterX
      { f with dx := f.speed * (foodCenterX T - fishCenterX f) / d,
               dy := f.speed * (foodCenterY T - fishCenterY f) / d,
               x := f.x + f.speed * (foodCenterX T - fishCenterX f) / d,
               y := f.y + f.speed * (foodCenterY T - fishCenterY f) / d }
      = fishCenterX f + f.speed * (foodCenterX T - fishCenterX f) / d := by
    simp only [fishCenterX]
    ring
  have hfy : fishCenterY
      { f with dx := f.speed * (foodCenterX T - fishCenterX f) / d,
               dy := f.speed * (foodCenterY T - fishCenterY f) / d,
               x := f.x + f.speed * (foodCenterX T - fishCenterX f) / d,
               y := f.y + f.speed * (foodCenterY T - fishCenterY f) / d }
      = fishCenterY f + f.speed * (foodCenterY T - fishCenterY f) / d := by
    simp only [fishCenterY]
    ring
  rw [centerDistSq, hfx, hfy, centerDistSq] at *
  set A := foodCenterX T - fishCenterX f with hAdef
  set B := foodCenterY T - fishCenterY f with hBdef
  have hid : (foodCenterX T - (fishCenterX f + f.speed * A / d)) ^ 2 +
      (foodCenterY T - (fishCenterY f + f.speed * B / d)) ^ 2
      = (A ^ 2 + B ^ 2) * ((d - f.speed) / d) ^ 2 := by
    field_simp
    ring
  rw [hid]
  have h1 : ((d - f.speed) / d) ^ 2 < 1 := by
    rw [div_pow, div_lt_one (by positivity)]
    nlinarith
  have h2 : (0:ℝ) < A ^ 2 + B ^ 2 := by
    rw [← hd2]
    positivity
  calc (A ^ 2 + B ^ 2) * ((d - f.speed) / d) ^ 2
      < (A ^ 2 + B ^ 2) * 1 := by exact mul_lt_mul_of_pos_left h1 h2
    _ = A ^ 2 + B ^ 2 := mul_one _

/-- A fish in open water, 65 pixels left of a food center. -/
def fishMid : Fish :=
  { x := 400, y := 300, dx := 0, dy := 0, w := 900, h := 600, iw := 120, ih := 80,
    speed := 1, change_dir_counter := 0, flipped := false }

/-- Food whose center is 65 pixels right of the center of fishMid. -/
def foodSide : Food :=
  { x := 500, y := 315, sw := 50, sh := 50, alpha := 255, fading := false }

theorem fish_seek_decreases_distance_witness :
    eatRadius fishMid ≤ targetDist fishMid foodSide ∧
    centerDistSq (Fish.update fishMid (true, true) [foodSide]).1 foodSide <
      centerDistSq fishMid foodSide := by
  have htgt : fishTarget (fishCenterX fishMid) (fishCenterY fishMid) foodSide []
      = (foodSide, 0) := by
    rw [fishTarget, minFrom]
  have hdsq : centerDistSq fishMid foodSide = 4225 := by
    norm_num [centerDistSq, foodCenterX, foodCenterY, fishCenterX, fishCenterY,
      fishMid, foodSide]
  have hs : Real.sqrt 4225 = 65 := by
    rw [show (4225:ℝ) = 65 ^ 2 by norm_num]
    exact Real.sqrt_sq (by norm_num)
  have hdist : targetDist fishMid foodSide = 65 := by
    rw [targetDist, hdsq, hs, max_eq_left (by norm_num)]
  have heat : eatRadius fishMid = 28 := by
    norm_num [eatRadius, fishMid]
  have hfcx : foodCenterX foodSide = 525 := by
    norm_num [foodCenterX, foodSide]
  have hfcy : foodCenterY foodSide = 340 := by
    norm_num [foodCenterY, foodSide]
  have hcx : fishCenterX fishMid = 460 := by
    norm_num [fishCenterX, fishMid]
  have hcy : fishCenterY fishMid = 340 := by
    norm_num [fishCenterY, fishMid]
  refine ⟨by rw [hdist, heat]; norm_num, ?_⟩
  exact fish_seek_decreases_distance fishMid (true, true) foodSide [] foodSide
    (by rw [htgt]) 65 (by rw [hdist]) (by norm_num [fishMid])
    (by rw [heat]; norm_num) (by norm_num [fishMid]) (by norm_num [fishMid])
    (by rw [hfcx, hcx]; norm_num [fishMid])
    (by rw [hfcx, hcx]; norm_num [fishMid])
    (by rw [hfcy, hcy]; norm_num [fishMid])
    (by rw [hfcy, hcy]; norm_num [fishMid])

/-- check_bounds never changes the stored dimensions. -/
lemma cb_dims (f : Fish) :
    (Fish.check_bounds f).w = f.w ∧ (Fish.check_bounds f).h = f.h ∧
    (Fish.check_bounds f).iw = f.iw ∧ (Fish.check_bounds f).ih = f.ih := by
  simp only [Fish.check_bounds]
  split <;> split <;> exact ⟨rfl, rfl, rfl, rfl⟩

/-- A fish pressed against the right wall (x = 900 - 120). -/
def fishWall : Fish :=
  { x := 780, y := 300, dx := 0, dy := 0, w := 900, h := 600, iw := 120, ih := 80,
    speed := 1, change_dir_counter := 0, flipped := false }

/-- Food (clicked inside the window) whose center lies beyond the wall,
exactly 65 pixels right of the center of fishWall. -/
def foodBeyondWall : Food :=
  { x := 880, y := 315, sw := 50, sh := 50, alpha := 255, fading := false }

/-- C1 counterexample: the food set is non-empty and the distance to the
targeted food (65) is above the eat radius (28), yet one update leaves the
squared center distance UNCHANGED (4225): the fish steps right, immediately
violates the right bound, and the clamp puts it back where it started.  So
the distance does not strictly decrease. -/
theorem fish_seek_wall_counterexample :
    ([foodBeyondWall] : List Food) ≠ [] ∧
    eatRadius fishWall ≤ targetDist fishWall
      (fishTarget (fishCenterX fishWall) (fishCenterY fishWall) foodBeyondWall []).1 ∧
    centerDistSq (Fish.update fishWall (true, true) [foodBeyondWall]).1
        (fishTarget (fishCenterX fishWall) (fishCenterY fishWall) foodBeyondWall []).1 =
      centerDistSq fishWall
        (fishTarget (fishCenterX fishWall) (fishCenterY fishWall) foodBeyondWall []).1 ∧
    ¬(centerDistSq (Fish.update fishWall (true, true) [foodBeyondWall]).1
        (fishTarget (fishCenterX fishWall) (fishCenterY fishWall) foodBeyondWall []).1 <
      centerDistSq fishWall
        (fishTarget (fishCenterX fishWall) (fishCenterY fishWall) foodBeyondWall []).1) := by
  have htgt : fishTarget (fishCenterX fishWall) (fishCenterY fishWall) foodBeyondWall []
      = (foodBeyondWall, 0) := by
    rw [fishTarget, minFrom]
  have hdsq : centerDistSq fishWall foodBeyondWall = 4225 := by
    norm_num [centerDistSq, foodCenterX, foodCenterY, fishCenterX, fishCenterY,
      fishWall, foodBeyondWall]
  have hs : Real.sqrt 4225 = 65 := by
    rw [show (4225:ℝ) = 65 ^ 2 by norm_num]
    exact Real.sqrt_sq (by norm_num)
  have hdist : targetDist fishWall foodBeyondWall = 65 := by
    rw [targetDist, hdsq, hs, max_eq_left (by norm_num)]
  have heat : eatRadius fishWall = 28 := by
    norm_num [eatRadius, fishWall]
  have hfcx : foodCenterX foodBeyondWall = 905 := by
    norm_num [foodCenterX, foodBeyondWall]
  have hfcy : foodCenterY foodBeyondWall = 340 := by
    norm_num [foodCenterY, foodBeyondWall]
  have hcx : fishCenterX fishWall = 840 := by
    norm_num [fishCenterX, fishWall]
  have hcy : fishCenterY fishWall = 340 := by
    norm_num [fishCenterY, fishWall]
  have hcond : ¬(targetDist fishWall foodBeyondWall < eatRadius fishWall) := by
    rw [hdist, heat]; norm_num
  have hupd : (Fish.update fishWall (true, true) [foodBeyondWall]).1
      = Fish.check_bounds
        { x := 781, y := 300, dx := 1, dy := 0, w := 900, h := 600, iw := 120,
          ih := 80, speed := 1, change_dir_counter := 0, flipped := false } := by
    simp only [Fish.update]
    rw [htgt]
    dsimp only
    rw [if_neg hcond]
    rw [hfcx, hfcy, hcx, hcy, hdist]
    norm_num [fishWall]
  have hcb : Fish.check_bounds
      { x := 781, y := 300, dx := 1, dy := 0, w := 900, h := 600, iw := 120,
        ih := 80, speed := 1, change_dir_counter := 0, flipped := false }
      = { x := 780, y := 300, dx := -1, dy := 0, w := 900, h := 600, iw := 120,
          ih := 80, speed := 1, change_dir_counter := 0, flipped := true } := by
    simp only [Fish.check_bounds]
    norm_num
  have hafter : centerDistSq (Fish.update fishWall (true, true) [foodBeyondWall]).1
      foodBeyondWall = 4225 := by
    rw [hupd, hcb]
    norm_num [centerDistSq, foodCenterX, foodCenterY, fishCenterX, fishCenterY,
      foodBeyondWall]
  refine ⟨by simp, ?_, ?_, ?_⟩
  · rw [htgt]; dsimp only; rw [hdist, heat]; norm_num
  · rw [htgt]; dsimp only; rw [hafter, hdsq]
  · rw [htgt]; dsimp only; rw [hafter, hdsq]; norm_num
